import Mathlib

/-!
# MDDecks search worker — verification of the dynamic query compiler

Shallow embedding of `worker/src/handlers/search.js`: the query compiler
`buildSearchQuery` (lines 10–131) and the pagination/validation/dispatch part
of `handleSearchRequest` (lines 139–208), together with theorems settling the
specification's claims about them.
-/

namespace MDDecks

/-! ## Models of the JS primitives used by the handler -/

/-- A multi-valued ordered parameter mapping, modelling `URLSearchParams`:
the `(key, value)` pairs in URL order. -/
abbrev Params := List (String × String)

/-- `URLSearchParams.get(k)`: the first value bound to `k`, or `null` (`none`). -/
def get (p : Params) (k : String) : Option String :=
  (p.find? (fun kv => kv.1 == k)).map (fun kv => kv.2)

/-- `URLSearchParams.getAll(k)`: every value bound to `k`, in order. -/
def getAll (p : Params) (k : String) : List String :=
  (p.filter (fun kv => kv.1 == k)).map (fun kv => kv.2)

/-- JS `x || dflt` on a nullable string: `null` and `""` are falsy. -/
def jsOr (x : Option String) (dflt : String) : String :=
  match x with
  | none => dflt
  | some v => if v = "" then dflt else v

/-- `s.trim()`: the characters of `s` with leading and trailing whitespace
removed (structural, over the character list). -/
def trimmedChars (s : String) : List Char :=
  ((s.data.dropWhile Char.isWhitespace).reverse.dropWhile Char.isWhitespace).reverse

/-- `s.trim()` as a string. -/
def trimJS (s : String) : String :=
  String.mk (trimmedChars s)

/-- The numeric value of the longest digit prefix, `none` when there is none. -/
def digitsPrefixVal (l : List Char) : Option Nat :=
  let ds := l.takeWhile Char.isDigit
  if ds.isEmpty then none
  else some (ds.foldl (fun n c => n * 10 + (c.toNat - 48)) 0)

/-- JS `parseInt(s, 10)`: skip leading/trailing whitespace, optional sign, then
the longest prefix of decimal digits; `none` models `NaN` (no digits at all). -/
def parseIntJS (s : String) : Option Int :=
  match trimmedChars s with
  | '-' :: rest => (digitsPrefixVal rest).map (fun n => -(n : Int))
  | '+' :: rest => (digitsPrefixVal rest).map (fun n => (n : Int))
  | l => (digitsPrefixVal l).map (fun n => (n : Int))

/-- JS `String.prototype.split` with a single-character separator: splits into
(possibly empty) segments between occurrences of `sep`. -/
def splitChar (sep : Char) : List Char → List (List Char)
  | [] => [[]]
  | c :: cs =>
    let r := splitChar sep cs
    if c == sep then [] :: r
    else
      match r with
      | [] => [[c]]
      | h :: t => (c :: h) :: t

/-- `s.split(sep)` as strings. -/
def splitJS (s : String) (sep : Char) : List String :=
  (splitChar sep s.data).map String.mk

/-- All-digit string to `Nat` (helper for the date model). -/
def decDigits (s : String) : Option Nat :=
  if s.data.length > 0 && s.data.all Char.isDigit then
    some (s.data.foldl (fun n c => n * 10 + (c.toNat - 48)) 0)
  else none

/-- Days from 1970-01-01 of a proleptic-Gregorian civil date. -/
def daysFromCivil (y m d : Int) : Int :=
  let yy := if m ≤ 2 then y - 1 else y
  let era := yy.ediv 400
  let yoe := yy - era * 400
  let doy := (153 * (m + (if 2 < m then -3 else 9)) + 2).ediv 5 + d - 1
  let doe := yoe * 365 + yoe.ediv 4 - yoe.ediv 100 + doy
  era * 146097 + doe - 719468

/-- JS `Date.parse` modelled for the ISO `YYYY-MM-DD` form the API documents
(UTC midnight, milliseconds since the epoch); any other input is `NaN` (`none`). -/
def dateParseJS (s : String) : Option Int :=
  match splitJS s '-' with
  | [ys, ms, ds] =>
    if ys.data.length == 4 && ms.data.length == 2 && ds.data.length == 2 then
      match decDigits ys, decDigits ms, decDigits ds with
      | some y, some m, some d =>
        if 1 ≤ m ∧ m ≤ 12 ∧ 1 ≤ d ∧ d ≤ 31 then
          some (daysFromCivil (Int.ofNat y) (Int.ofNat m) (Int.ofNat d) * 86400000)
        else none
      | _, _, _ => none
    else none
  | _ => none

/-! ## The query compiler: `buildSearchQuery` (search.js lines 10–131) -/

/-- A value bound into a prepared statement — a JS string or number, or the `NaN`
that `parseInt`/`Date.parse` produce on malformed input. -/
inductive BindVal where
  | str (s : String)
  | int (n : Int)
  | nan
deriving DecidableEq, Repr

/-- The accumulator of `buildSearchQuery`: the `joins` Set (insertion order,
duplicate-free), the `conditions` array and the `bindings` array (lines 12–14). -/
structure CompState where
  joins : List String
  conditions : List String
  bindings : List BindVal
deriving DecidableEq, Repr

/-- `Set.prototype.add`: append unless already present (JS Sets keep insertion
order and drop duplicates). -/
def setAdd (s : List String) (x : String) : List String :=
  if x ∈ s then s else s ++ [x]

/-- Adding several join fragments in order. -/
def addJoins (s : List String) (xs : List String) : List String :=
  xs.foldl setAdd s

/-- `values.forEach((value, i) => ...)` threading the compiler accumulator. -/
def foldIdx (f : CompState → Nat → String → CompState) :
    Nat → List String → CompState → CompState
  | _, [], st => st
  | i, v :: vs, st => foldIdx f (i + 1) vs (f st i v)

/-- `paramName.replace(/[^a-zA-Z]/g, '')` (line 29). -/
def sanitizeAlias (s : String) : String :=
  String.mk (s.toList.filter Char.isAlpha)

/-- Lines 35–38: deck-name fuzzy match (no join). -/
def deckNameStep (p : Params) (st : CompState) : CompState :=
  match get p "deck_name" with
  | some v =>
    { st with conditions := st.conditions ++ ["D.deck_name LIKE ?"],
              bindings := st.bindings ++ [BindVal.str ("%" ++ v ++ "%")] }
  | none => st

/-- Line 43: the `lang` parameter split on commas, trimmed, and filtered against
the `['cn', 'en', 'jp']` allow-list. -/
def resolveLangs (p : Params) : List String :=
  ((splitJS (jsOr (get p "lang") "cn") ',').map trimJS).filter
    (fun l => ["cn", "en", "jp"].contains l)

/-- Lines 47–48: the two joins of the `i`-th `card` occurrence,
Deck→DeckCards→Cards under the join alias `card{i}`. -/
def cardJoins (i : Nat) : List String :=
  let al := "card" ++ Nat.repr i
  ["JOIN DeckCards AS DC_" ++ al ++ " ON D.deck_id = DC_" ++ al ++ ".deck_id",
   "JOIN Cards AS C_" ++ al ++ " ON DC_" ++ al ++ ".card_id = C_" ++ al ++ ".id"]

/-- Lines 50–52: the condition of the `i`-th `card` occurrence — a LIKE across
each active language-name column plus the `card_text_desc` column, ORed inside
one parenthesized group. -/
def cardCond (langs : List String) (i : Nat) : String :=
  let al := "card" ++ Nat.repr i
  let langConditions := langs.map (fun lang => "C_" ++ al ++ "." ++ lang ++ "_name LIKE ?")
  "(" ++ String.intercalate " OR "
    (langConditions ++ ["C_" ++ al ++ ".card_text_desc LIKE ?"]) ++ ")"

/-- Lines 55–56: one `%query%` binding per active language, then one more for the
description column. -/
def cardBinds (langs : List String) (query : String) : List BindVal :=
  langs.map (fun _ => BindVal.str ("%" ++ query ++ "%")) ++ [BindVal.str ("%" ++ query ++ "%")]

/-- Lines 45–57: one occurrence of the `card` parameter. -/
def cardOccurrence (langs : List String) (st : CompState) (i : Nat) (query : String) :
    CompState :=
  { joins := addJoins st.joins (cardJoins i),
    conditions := st.conditions ++ [cardCond langs i],
    bindings := st.bindings ++ cardBinds langs query }

/-- Lines 41–59: the `card` filter. Note the whole block — including the
description-only condition — is guarded by `if (langs.length > 0)`. -/
def cardStep (p : Params) (st : CompState) : CompState :=
  let cardQueries := getAll p "card"
  if cardQueries.length > 0 then
    let langs := resolveLangs p
    if langs.length > 0 then foldIdx (cardOccurrence langs) 0 cardQueries st
    else st
  else st

/-- Lines 25–32: generic handler for repeatable filter params; occurrence `i` of
`paramName` gets the join alias `paramName.replace(/[^a-zA-Z]/g, '') + i`. -/
def processMultiParamFilter (p : Params) (paramName : String)
    (joinLogic : String → String → List String × String × BindVal)
    (st : CompState) : CompState :=
  foldIdx
    (fun st i value =>
      let al := sanitizeAlias paramName ++ Nat.repr i
      let r := joinLogic value al
      { joins := addJoins st.joins r.1,
        conditions := st.conditions ++ [r.2.1],
        bindings := st.bindings ++ [r.2.2] })
    0 (getAll p paramName) st

/-- Lines 64–70: `race` join logic. -/
def raceLogic (raceName al : String) : List String × String × BindVal :=
  (["JOIN DeckCards AS DC_" ++ al ++ " ON D.deck_id = DC_" ++ al ++ ".deck_id",
    "JOIN CardToRace AS CTR_" ++ al ++ " ON DC_" ++ al ++ ".card_id = CTR_"
      ++ al ++ ".card_id",
    "JOIN Races AS R_" ++ al ++ " ON CTR_" ++ al ++ ".race_code = R_"
      ++ al ++ ".race_code"],
   "R_" ++ al ++ ".race_name LIKE ?",
   BindVal.str ("%" ++ raceName ++ "%"))

/-- Lines 73–79: `attribute` join logic. -/
def attributeLogic (attributeName al : String) : List String × String × BindVal :=
  (["JOIN DeckCards AS DC_" ++ al ++ " ON D.deck_id = DC_" ++ al ++ ".deck_id",
    "JOIN CardToAttribute AS CTA_" ++ al ++ " ON DC_" ++ al ++ ".card_id = CTA_"
      ++ al ++ ".card_id",
    "JOIN Attributes AS A_" ++ al ++ " ON CTA_" ++ al ++ ".attribute_code = A_"
      ++ al ++ ".attribute_code"],
   "A_" ++ al ++ ".attribute_name LIKE ?",
   BindVal.str ("%" ++ attributeName ++ "%"))

/-- Lines 82–88: `type` join logic. -/
def typeLogic (typeName al : String) : List String × String × BindVal :=
  (["JOIN DeckCards AS DC_" ++ al ++ " ON D.deck_id = DC_" ++ al ++ ".deck_id",
    "JOIN CardToType AS CTT_" ++ al ++ " ON DC_" ++ al ++ ".card_id = CTT_"
      ++ al ++ ".card_id",
    "JOIN CardTypes AS CT_" ++ al ++ " ON CTT_" ++ al ++ ".type_code = CT_"
      ++ al ++ ".type_code"],
   "CT_" ++ al ++ ".type_name LIKE ?",
   BindVal.str ("%" ++ typeName ++ "%"))

/-- Lines 91–97: `setcode` join logic. -/
def setcodeLogic (setcode al : String) : List String × String × BindVal :=
  (["JOIN DeckCards AS DC_" ++ al ++ " ON D.deck_id = DC_" ++ al ++ ".deck_id",
    "JOIN CardToSetcode AS CTS_" ++ al ++ " ON DC_" ++ al ++ ".card_id = CTS_"
      ++ al ++ ".card_id",
    "JOIN Setcodes AS S_" ++ al ++ " ON CTS_" ++ al ++ ".set_code = S_"
      ++ al ++ ".set_code"],
   "S_" ++ al ++ ".set_name_cn LIKE ?",
   BindVal.str ("%" ++ setcode ++ "%"))

/-- `parseInt` result as a binding: a failed parse binds `NaN`. -/
def intBind (o : Option Int) : BindVal :=
  match o with
  | some n => BindVal.int n
  | none => BindVal.nan

/-- `Math.floor(Date.parse(v) / 1000)`: `NaN` propagates through the division. -/
def dateBind (o : Option Int) : BindVal :=
  match o with
  | some ms => BindVal.int (Int.fdiv ms 1000)
  | none => BindVal.nan

/-- Lines 100–104: likes/date range filters. No validation is performed — the
(possibly `NaN`) parse result is bound directly. -/
def rangeStep (p : Params) (st : CompState) : CompState :=
  let st1 := match get p "likes_ge" with
    | some v => { st with conditions := st.conditions ++ ["D.deck_like >= ?"],
                          bindings := st.bindings ++ [intBind (parseIntJS v)] }
    | none => st
  let st2 := match get p "likes_le" with
    | some v => { st1 with conditions := st1.conditions ++ ["D.deck_like <= ?"],
                           bindings := st1.bindings ++ [intBind (parseIntJS v)] }
    | none => st1
  let st3 := match get p "after_date" with
    | some v => { st2 with conditions := st2.conditions ++ ["D.upload_date >= ?"],
                           bindings := st2.bindings ++ [dateBind (dateParseJS v)] }
    | none => st2
  match get p "before_date" with
  | some v => { st3 with conditions := st3.conditions ++ ["D.upload_date <= ?"],
                         bindings := st3.bindings ++ [dateBind (dateParseJS v)] }
  | none => st3

/-- The filter-accumulation phase of `buildSearchQuery` (lines 12–104), applied in
source order: deck name, card, race, attribute, type, setcode, ranges. It never
reads `isCountQuery` or the pagination options. -/
def filterState (p : Params) : CompState :=
  rangeStep p
    (processMultiParamFilter p "setcode" setcodeLogic
      (processMultiParamFilter p "type" typeLogic
        (processMultiParamFilter p "attribute" attributeLogic
          (processMultiParamFilter p "race" raceLogic
            (cardStep p (deckNameStep p ⟨[], [], []⟩))))))

/-- Lines 107–109: the `JOIN ... WHERE ...` tail shared by both statements. -/
def joinsWhereClause (p : Params) : String :=
  let st := filterState p
  (if st.joins.length > 0 then " " ++ String.intercalate " " st.joins else "") ++
  (if st.conditions.length > 0 then " WHERE " ++ String.intercalate " AND " st.conditions
   else "")

/-- Lines 112–124: the ORDER BY clause of the data statement. One shared
`orderDirection` is used for the primary and the secondary key. -/
def orderByClause (p : Params) (reverse : Bool) : String :=
  let orderDirection := if reverse then "ASC" else "DESC"
  let sortBy := jsOr (get p "order") "rate"
  if sortBy = "date" then
    " ORDER BY D.update_date " ++ orderDirection ++ ", D.deck_like " ++ orderDirection
  else
    " ORDER BY D.deck_like " ++ orderDirection ++ ", D.update_date " ++ orderDirection

/-- The `options` object of `buildSearchQuery`. -/
structure QueryOptions where
  limit : Int
  offset : Int
  reverse : Bool
deriving DecidableEq, Repr

/-- The line-11 defaults `{limit = 10, offset = 0, reverse = false}`. -/
def defaultOptions : QueryOptions := ⟨10, 0, false⟩

/-- The `{sql, params}` pair returned by `buildSearchQuery`. -/
structure Statement where
  sql : String
  params : List BindVal
deriving DecidableEq, Repr

/-- `buildSearchQuery(params, isCountQuery, options)` (lines 10–131): count mode
projects `COUNT(DISTINCT D.deck_id)`; data mode projects `DISTINCT D.*` and
appends ORDER BY plus `LIMIT ? OFFSET ?` with the two trailing bindings. -/
def buildSearchQuery (p : Params) (isCountQuery : Bool) (options : QueryOptions) : Statement :=
  let st := filterState p
  if isCountQuery then
    ⟨"SELECT COUNT(DISTINCT D.deck_id) FROM Decks AS D" ++ joinsWhereClause p,
     st.bindings⟩
  else
    ⟨"SELECT DISTINCT D.* FROM Decks AS D" ++ joinsWhereClause p
       ++ orderByClause p options.reverse ++ " LIMIT ? OFFSET ?",
     st.bindings ++ [BindVal.int options.limit, BindVal.int options.offset]⟩

/-! ## The search request handler (search.js lines 139–208) -/

/-- Outcome of pagination resolution (lines 143–169). -/
inductive PaginationResult where
  | invalid (error : String)
  | resolved (limit offset : Int)
deriving DecidableEq, Repr

/-- Line 152 error message. -/
def startErrMsg : String := "无效的 'start' 参数，必须为非负整数。"

/-- Line 159 error message. -/
def endErrMsg : String := "无效的 'end' 参数，必须是大于 'start' 的整数。"

/-- Line 165 error message. -/
def sizeErrMsg : String := "无效的 'size' 参数，必须为正整数。"

/-- Lines 143–169: `limit`/`offset` resolution. The `end`/`size` parameters are
only examined inside the `startParam !== null` branch. -/
def resolvePagination (p : Params) : PaginationResult :=
  match get p "start" with
  | none => PaginationResult.resolved 10 0
  | some startParam =>
    match parseIntJS startParam with
    | none => PaginationResult.invalid startErrMsg
    | some start =>
      if start < 0 then PaginationResult.invalid startErrMsg
      else
        match get p "end" with
        | some endParam =>
          match parseIntJS endParam with
          | none => PaginationResult.invalid endErrMsg
          | some e =>
            if e ≤ start then PaginationResult.invalid endErrMsg
            else PaginationResult.resolved (e - start) start
        | none =>
          match get p "size" with
          | some sizeParam =>
            match parseIntJS sizeParam with
            | none => PaginationResult.invalid sizeErrMsg
            | some size =>
              if size ≤ 0 then PaginationResult.invalid sizeErrMsg
              else PaginationResult.resolved size start
          | none => PaginationResult.resolved 10 start

/-- What the handler decides before any storage interaction: either an immediate
400 response (lines 149–168) or the statement list it submits as one
`env.DECK_DB.batch` call (lines 179–182). -/
inductive PreOutcome where
  | badRequest (status : Nat) (error : String)
  | execute (batchStatements : List Statement) (limit offset : Int)
deriving DecidableEq, Repr

/-- `handleSearchRequest` (lines 139–182) up to the storage call: resolve
pagination, read `reverse` (strict `=== 'true'` match, line 172), compile the
data statement and the count statement, and hand both to one batch. -/
def handleSearchRequest (p : Params) : PreOutcome :=
  match resolvePagination p with
  | PaginationResult.invalid msg => PreOutcome.badRequest 400 msg
  | PaginationResult.resolved limit offset =>
    let reverse := get p "reverse" == some "true"
    let query := buildSearchQuery p false ⟨limit, offset, reverse⟩
    let countQuery := buildSearchQuery p true defaultOptions
    PreOutcome.execute [query, countQuery] limit offset

/-- The storage-engine interaction trace of a request: each element is one atomic
`env.DECK_DB.batch` call, listing the statements it carries. The source contains
exactly one such call (lines 179–182) and no other storage access. -/
def storageCalls (p : Params) : List (List Statement) :=
  match handleSearchRequest p with
  | PreOutcome.badRequest _ _ => []
  | PreOutcome.execute stmts _ _ => [stmts]

/-- The HTTP status decided before storage: `some 400` on validation failure,
`none` when execution proceeds to the batch. -/
def preStatus (p : Params) : Option Nat :=
  match handleSearchRequest p with
  | PreOutcome.badRequest s _ => some s
  | PreOutcome.execute _ _ _ => none

/-- The success envelope's `data` object (lines 194–202). -/
structure Envelope (α : Type) where
  total : Int
  start : Int
  size : Nat
  list : List α

/-- Lines 194–202: result shaping. `dataResults` models `dataResult.results`
(`none` when the driver returns no array); `size` is
`dataResult.results?.length || 0` and `list` is `dataResult.results || []`. -/
def shapeResponse {α : Type} (offset : Int) (total : Int)
    (dataResults : Option (List α)) : Envelope α :=
  { total := total,
    start := offset,
    size := match dataResults with
            | some rows => rows.length
            | none => 0,
    list := match dataResults with
            | some rows => rows
            | none => [] }

/-! ## Structural lemmas about the accumulator -/

/-- A list mapped together with its `forEach` index, the index starting at `i`. -/
def idxMap {α : Type} (g : Nat → String → α) : Nat → List String → List α
  | _, [] => []
  | i, v :: vs => g i v :: idxMap g (i + 1) vs

/-- The decimal digit characters of `n`, most significant first. -/
def decRepr (n : Nat) : List Char :=
  if n / 10 = 0 then [Nat.digitChar (n % 10)]
  else decRepr (n / 10) ++ [Nat.digitChar (n % 10)]
termination_by n
decreasing_by
  exact Nat.div_lt_self (Nat.pos_of_ne_zero (fun h0 => by subst h0; simp_all)) (by omega)

/-- Reading a digit list back as a number. -/
def decVal (l : List Char) : Nat :=
  l.foldl (fun a c => a * 10 + (c.toNat - 48)) 0

/-- The condition contributed by the `deck_name` filter, if present. -/
def deckNameConds (p : Params) : List String :=
  match get p "deck_name" with
  | some _ => ["D.deck_name LIKE ?"]
  | none => []

/-- The conditions contributed by the `card` filter occurrences. -/
def cardContrib (p : Params) : List String :=
  if (getAll p "card").length > 0 then
    if (resolveLangs p).length > 0 then
      idxMap (fun i _ => cardCond (resolveLangs p) i) 0 (getAll p "card")
    else []
  else []

/-- The conditions contributed by the occurrences of one repeatable categorical
filter, in occurrence order. -/
def catContrib (p : Params) (key : String)
    (joinLogic : String → String → List String × String × BindVal) : List String :=
  idxMap (fun i v => (joinLogic v (sanitizeAlias key ++ Nat.repr i)).2.1) 0 (getAll p key)

/-- The conditions contributed by the range filters, in source order. -/
def rangeConds (p : Params) : List String :=
  (match get p "likes_ge" with | some _ => ["D.deck_like >= ?"] | none => []) ++
  (match get p "likes_le" with | some _ => ["D.deck_like <= ?"] | none => []) ++
  (match get p "after_date" with | some _ => ["D.upload_date >= ?"] | none => []) ++
  (match get p "before_date" with | some _ => ["D.upload_date <= ?"] | none => [])

/-- The C6 rejection outcome: a 400 status decided before storage and an empty
storage trace. -/
def rejectedBeforeStorage (p : Params) : Prop :=
  preStatus p = some 400 ∧ storageCalls p = []

/-- The C4 obligations for one repeatable categorical filter key: the occurrence
conditions in explicit form (each a single LIKE under the alias built from the
key and the occurrence index), one condition per occurrence, pairwise-distinct
conditions (distinct aliases), contiguous placement inside the accumulated
top-level AND list, and presence of every join fragment of every occurrence in
the final join set. -/
def CatFilterOk (p : Params) (key : String)
    (logic : String → String → List String × String × BindVal)
    (condOf : Nat → String) : Prop :=
  catContrib p key logic = (List.range (getAll p key).length).map condOf
  ∧ (catContrib p key logic).length = (getAll p key).length
  ∧ (catContrib p key logic).Nodup
  ∧ (∃ pre post, (filterState p).conditions = pre ++ catContrib p key logic ++ post)
  ∧ (∀ j v, (j, v) ∈ idxMap (fun a b => (a, b)) 0 (getAll p key) →
      ∀ x ∈ (logic v (sanitizeAlias key ++ Nat.repr j)).1, x ∈ (filterState p).joins)

theorem idxMap_length {α : Type} (g : Nat → String → α) :
    ∀ (vs : List String) (i : Nat), (idxMap g i vs).length = vs.length := by
  intro vs
  induction vs with
  | nil => intro i; rfl
  | cons v vs ih => intro i; simp [idxMap, ih]

theorem mem_idxMap_const {α : Type} (g : Nat → α) :
    ∀ (vs : List String) (i : Nat) (x : α),
      x ∈ idxMap (fun j _ => g j) i vs → ∃ j, i ≤ j ∧ x = g j := by
  intro vs
  induction vs with
  | nil => intro i x h; simp [idxMap] at h
  | cons v vs ih =>
    intro i x h
    simp only [idxMap, List.mem_cons] at h
    rcases h with h | h
    · exact ⟨i, le_refl i, h⟩
    · obtain ⟨j, hj, hx⟩ := ih (i + 1) x h
      exact ⟨j, by omega, hx⟩

theorem idxMap_nodup {α : Type} (g : Nat → α) (hg : Function.Injective g) :
    ∀ (vs : List String) (i : Nat), (idxMap (fun j _ => g j) i vs).Nodup := by
  intro vs
  induction vs with
  | nil => intro i; simp [idxMap]
  | cons v vs ih =>
    intro i
    simp only [idxMap, List.nodup_cons]
    refine ⟨fun hmem => ?_, ih (i + 1)⟩
    obtain ⟨j, hj, hx⟩ := mem_idxMap_const g vs (i + 1) (g i) hmem
    have : i = j := hg hx
    omega

theorem idxMap_const_eq_range_map {α : Type} (g : Nat → α) :
    ∀ (vs : List String) (i : Nat),
      idxMap (fun j _ => g j) i vs = (List.range vs.length).map (fun j => g (i + j)) := by
  intro vs
  induction vs with
  | nil => intro i; simp [idxMap]
  | cons v vs ih =>
    intro i
    rw [idxMap, ih, List.length_cons, List.range_succ_eq_map]
    simp only [List.map_cons, List.map_map, Nat.add_zero]
    refine congrArg₂ List.cons rfl ?_
    apply List.map_congr_left
    intro a _
    simp only [Function.comp_apply]
    apply congrArg
    omega

theorem subset_setAdd (s : List String) (x : String) : s ⊆ setAdd s x := by
  intro y hy
  unfold setAdd
  split
  · exact hy
  · exact List.mem_append_left _ hy

theorem mem_setAdd_self (s : List String) (x : String) : x ∈ setAdd s x := by
  unfold setAdd
  split
  · assumption
  · exact List.mem_append_right _ (List.mem_singleton.mpr rfl)

theorem subset_addJoins (xs : List String) : ∀ s : List String, s ⊆ addJoins s xs := by
  induction xs with
  | nil => intro s; exact fun _ h => h
  | cons x xs ih =>
    intro s
    calc s ⊆ setAdd s x := subset_setAdd s x
    _ ⊆ addJoins (setAdd s x) xs := ih (setAdd s x)

theorem mem_addJoins (xs : List String) :
    ∀ (s : List String) (x : String), x ∈ xs → x ∈ addJoins s xs := by
  induction xs with
  | nil => intro s x h; simp at h
  | cons y ys ih =>
    intro s x h
    rcases List.mem_cons.mp h with h | h
    · subst h
      exact subset_addJoins ys (setAdd s x) (mem_setAdd_self s x)
    · exact ih (setAdd s y) x h

theorem foldIdx_conditions (f : CompState → Nat → String → CompState)
    (cOf : Nat → String → String)
    (hf : ∀ st i v, (f st i v).conditions = st.conditions ++ [cOf i v]) :
    ∀ (vs : List String) (i : Nat) (st : CompState),
      (foldIdx f i vs st).conditions = st.conditions ++ idxMap cOf i vs := by
  intro vs
  induction vs with
  | nil => intro i st; simp [foldIdx, idxMap]
  | cons v vs ih =>
    intro i st
    rw [foldIdx, ih, hf, idxMap]
    simp [List.append_assoc]

theorem foldIdx_joins_of_shape (f : CompState → Nat → String → CompState)
    (jOf : Nat → String → List String)
    (hf : ∀ st i v, (f st i v).joins = addJoins st.joins (jOf i v)) :
    ∀ (vs : List String) (i : Nat) (st : CompState),
      st.joins ⊆ (foldIdx f i vs st).joins := by
  intro vs
  induction vs with
  | nil => intro i st; exact fun _ h => h
  | cons v vs ih =>
    intro i st
    intro y hy
    apply ih (i + 1) (f st i v)
    rw [hf]
    exact subset_addJoins _ _ hy

theorem foldIdx_joins_mem (f : CompState → Nat → String → CompState)
    (jOf : Nat → String → List String)
    (hf : ∀ st i v, (f st i v).joins = addJoins st.joins (jOf i v)) :
    ∀ (vs : List String) (i : Nat) (st : CompState) (j : Nat) (v : String) (x : String),
      (j, v) ∈ idxMap (fun a b => (a, b)) i vs → x ∈ jOf j v →
      x ∈ (foldIdx f i vs st).joins := by
  intro vs
  induction vs with
  | nil => intro i st j v x h _; simp [idxMap] at h
  | cons w vs ih =>
    intro i st j v x h hx
    simp only [idxMap, List.mem_cons] at h
    rcases h with h | h
    · obtain ⟨hj, hv⟩ := Prod.mk.injEq .. ▸ h
      rw [foldIdx]
      apply foldIdx_joins_of_shape f jOf hf vs (i + 1) (f st i w)
      rw [hf]
      subst hj
      subst hv
      exact mem_addJoins _ _ _ hx
    · rw [foldIdx]
      exact ih (i + 1) (f st i w) j v x h hx

/-! ## Decimal rendering is injective (distinctness of generated aliases) -/

theorem toDigitsCore_eq_decRepr :
    ∀ (fuel n : Nat) (ds : List Char), n < fuel →
      Nat.toDigitsCore 10 fuel n ds = decRepr n ++ ds := by
  intro fuel
  induction fuel with
  | zero => intro n ds h; exact absurd h (Nat.not_lt_zero n)
  | succ f ih =>
    intro n ds h
    rw [Nat.toDigitsCore]
    by_cases h10 : n / 10 = 0
    · rw [decRepr]
      simp [h10]
    · have hlt : n / 10 < f := by
        have h1 : 0 < n := by
          rcases Nat.eq_zero_or_pos n with h0 | h0
          · subst h0; simp at h10
          · exact h0
        have := Nat.div_lt_self h1 (by omega : 1 < 10)
        omega
      rw [decRepr]
      simp only [h10, if_false, ite_false]
      rw [ih (n / 10) (Nat.digitChar (n % 10) :: ds) hlt]
      simp

theorem repr_data_eq_decRepr (n : Nat) : (Nat.repr n).data = decRepr n := by
  show (Nat.toDigits 10 n).asString.data = decRepr n
  rw [Nat.toDigits, toDigitsCore_eq_decRepr (n + 1) n [] (Nat.lt_succ_self n)]
  simp [List.asString]

theorem digitChar_toNat_sub (m : Nat) (h : m < 10) : (Nat.digitChar m).toNat - 48 = m := by
  interval_cases m <;> rfl

theorem decVal_decRepr (n : Nat) : decVal (decRepr n) = n := by
  induction n using Nat.strong_induction_on with
  | _ n ih =>
    rw [decRepr]
    by_cases h : n / 10 = 0
    · have hn : n < 10 := by omega
      rw [if_pos h]
      show 0 * 10 + ((Nat.digitChar (n % 10)).toNat - 48) = n
      rw [Nat.zero_mul, Nat.zero_add, Nat.mod_eq_of_lt hn]
      exact digitChar_toNat_sub n hn
    · have h1 : 0 < n := by
        rcases Nat.eq_zero_or_pos n with h0 | h0
        · subst h0; simp at h
        · exact h0
      have hlt : n / 10 < n := Nat.div_lt_self h1 (by omega)
      rw [if_neg h]
      unfold decVal
      rw [List.foldl_append]
      have hrec : decVal (decRepr (n / 10)) = n / 10 := ih (n / 10) hlt
      unfold decVal at hrec
      rw [hrec]
      simp only [List.foldl_cons, List.foldl_nil]
      rw [digitChar_toNat_sub (n % 10) (Nat.mod_lt n (by omega))]
      omega

theorem natRepr_injective : Function.Injective Nat.repr := by
  intro m n h
  have hd : decRepr m = decRepr n := by
    rw [← repr_data_eq_decRepr, ← repr_data_eq_decRepr, h]
  calc m = decVal (decRepr m) := (decVal_decRepr m).symm
  _ = decVal (decRepr n) := by rw [hd]
  _ = n := decVal_decRepr n

theorem strData_append (a b : String) : (a ++ b).data = a.data ++ b.data := by
  cases a
  cases b
  rfl

theorem strData_inj {a b : String} (h : a.data = b.data) : a = b := by
  cases a
  cases b
  exact congrArg String.mk h

/-- Injectivity of `pre ++ (mid ++ Nat.repr i) ++ suf` in `i`: two occurrences of
a repeatable filter can never receive the same generated fragment. -/
theorem repr_wrap_injective (pre mid suf : String) :
    Function.Injective (fun i : Nat => pre ++ (mid ++ Nat.repr i) ++ suf) := by
  intro i j h
  simp only at h
  have hd := congrArg String.data h
  simp only [strData_append, List.append_assoc] at hd
  have h1 := List.append_cancel_left hd
  have h2 := List.append_cancel_left h1
  have h3 := List.append_cancel_right h2
  exact natRepr_injective (strData_inj h3)

/-! ## Decomposition of the accumulated conditions -/

theorem deckNameStep_conditions (p : Params) (st : CompState) :
    (deckNameStep p st).conditions = st.conditions ++ deckNameConds p := by
  unfold deckNameStep deckNameConds
  rcases get p "deck_name" <;> simp

theorem deckNameStep_joins (p : Params) (st : CompState) :
    (deckNameStep p st).joins = st.joins := by
  unfold deckNameStep
  rcases get p "deck_name" <;> rfl

theorem cardStep_conditions (p : Params) (st : CompState) :
    (cardStep p st).conditions = st.conditions ++ cardContrib p := by
  simp only [cardStep, cardContrib]
  by_cases h1 : (getAll p "card").length > 0
  · simp only [h1, if_true]
    by_cases h2 : (resolveLangs p).length > 0
    · simp only [h2, if_true]
      exact foldIdx_conditions _ _ (fun st i v => rfl) _ 0 st
    · simp [h2]
  · simp [h1]

theorem cardStep_joins_super (p : Params) (st : CompState) :
    st.joins ⊆ (cardStep p st).joins := by
  simp only [cardStep]
  by_cases h1 : (getAll p "card").length > 0
  · simp only [h1, if_true]
    by_cases h2 : (resolveLangs p).length > 0
    · simp only [h2, if_true]
      exact foldIdx_joins_of_shape _ (fun i _ => cardJoins i) (fun st i v => rfl) _ 0 st
    · simp [h2]
  · simp [h1]

theorem processMultiParamFilter_conditions (p : Params) (key : String)
    (logic : String → String → List String × String × BindVal) (st : CompState) :
    (processMultiParamFilter p key logic st).conditions
      = st.conditions ++ catContrib p key logic := by
  unfold processMultiParamFilter catContrib
  exact foldIdx_conditions _ _ (fun st i v => rfl) _ 0 st

theorem processMultiParamFilter_joins_super (p : Params) (key : String)
    (logic : String → String → List String × String × BindVal) (st : CompState) :
    st.joins ⊆ (processMultiParamFilter p key logic st).joins := by
  unfold processMultiParamFilter
  exact foldIdx_joins_of_shape _
    (fun i v => (logic v (sanitizeAlias key ++ Nat.repr i)).1) (fun st i v => rfl) _ 0 st

theorem processMultiParamFilter_joins_mem (p : Params) (key : String)
    (logic : String → String → List String × String × BindVal) (st : CompState)
    (j : Nat) (v x : String)
    (hmem : (j, v) ∈ idxMap (fun a b => (a, b)) 0 (getAll p key))
    (hx : x ∈ (logic v (sanitizeAlias key ++ Nat.repr j)).1) :
    x ∈ (processMultiParamFilter p key logic st).joins := by
  unfold processMultiParamFilter
  exact foldIdx_joins_mem _ _ (fun st i v => rfl) _ 0 st j v x hmem hx

theorem rangeStep_conditions (p : Params) (st : CompState) :
    (rangeStep p st).conditions = st.conditions ++ rangeConds p := by
  simp only [rangeStep, rangeConds]
  rcases get p "likes_ge" <;> rcases get p "likes_le" <;>
    rcases get p "after_date" <;> rcases get p "before_date" <;> simp

theorem rangeStep_joins (p : Params) (st : CompState) :
    (rangeStep p st).joins = st.joins := by
  simp only [rangeStep]
  rcases get p "likes_ge" <;> rcases get p "likes_le" <;>
    rcases get p "after_date" <;> rcases get p "before_date" <;> rfl

/-- The accumulated WHERE conditions, decomposed by filter, in source order. -/
theorem filterState_conditions (p : Params) :
    (filterState p).conditions
      = deckNameConds p ++ cardContrib p ++ catContrib p "race" raceLogic
        ++ catContrib p "attribute" attributeLogic ++ catContrib p "type" typeLogic
        ++ catContrib p "setcode" setcodeLogic ++ rangeConds p := by
  unfold filterState
  rw [rangeStep_conditions, processMultiParamFilter_conditions,
    processMultiParamFilter_conditions, processMultiParamFilter_conditions,
    processMultiParamFilter_conditions, cardStep_conditions, deckNameStep_conditions]
  simp [List.append_assoc]

theorem raceJoin_mem_filterState (p : Params) (j : Nat) (v x : String)
    (hmem : (j, v) ∈ idxMap (fun a b => (a, b)) 0 (getAll p "race"))
    (hx : x ∈ (raceLogic v (sanitizeAlias "race" ++ Nat.repr j)).1) :
    x ∈ (filterState p).joins := by
  unfold filterState
  rw [rangeStep_joins]
  apply processMultiParamFilter_joins_super
  apply processMultiParamFilter_joins_super
  apply processMultiParamFilter_joins_super
  exact processMultiParamFilter_joins_mem _ _ _ _ j v x hmem hx

theorem attributeJoin_mem_filterState (p : Params) (j : Nat) (v x : String)
    (hmem : (j, v) ∈ idxMap (fun a b => (a, b)) 0 (getAll p "attribute"))
    (hx : x ∈ (attributeLogic v (sanitizeAlias "attribute" ++ Nat.repr j)).1) :
    x ∈ (filterState p).joins := by
  unfold filterState
  rw [rangeStep_joins]
  apply processMultiParamFilter_joins_super
  apply processMultiParamFilter_joins_super
  exact processMultiParamFilter_joins_mem _ _ _ _ j v x hmem hx

theorem typeJoin_mem_filterState (p : Params) (j : Nat) (v x : String)
    (hmem : (j, v) ∈ idxMap (fun a b => (a, b)) 0 (getAll p "type"))
    (hx : x ∈ (typeLogic v (sanitizeAlias "type" ++ Nat.repr j)).1) :
    x ∈ (filterState p).joins := by
  unfold filterState
  rw [rangeStep_joins]
  apply processMultiParamFilter_joins_super
  exact processMultiParamFilter_joins_mem _ _ _ _ j v x hmem hx

theorem setcodeJoin_mem_filterState (p : Params) (j : Nat) (v x : String)
    (hmem : (j, v) ∈ idxMap (fun a b => (a, b)) 0 (getAll p "setcode"))
    (hx : x ∈ (setcodeLogic v (sanitizeAlias "setcode" ++ Nat.repr j)).1) :
    x ∈ (filterState p).joins := by
  unfold filterState
  rw [rangeStep_joins]
  exact processMultiParamFilter_joins_mem _ _ _ _ j v x hmem hx

theorem strAppend_assoc (a b c : String) : a ++ b ++ c = a ++ (b ++ c) := by
  apply strData_inj
  simp [strData_append]

/-- The handler's decision when pagination validation fails: status 400 is fixed
before storage and the storage trace stays empty. -/
theorem handle_invalid_rejects (p : Params) (msg : String)
    (h : resolvePagination p = PaginationResult.invalid msg) :
    preStatus p = some 400 ∧ storageCalls p = [] := by
  unfold preStatus storageCalls handleSearchRequest
  rw [h]
  exact ⟨rfl, rfl⟩

/-- The handler's decision when pagination resolves: no 400 is produced and the
trace is the single batch with the data and the count statement. -/
theorem handle_resolved_executes (p : Params) (l o : Int)
    (h : resolvePagination p = PaginationResult.resolved l o) :
    preStatus p = none
    ∧ storageCalls p
        = [[buildSearchQuery p false ⟨l, o, get p "reverse" == some "true"⟩,
            buildSearchQuery p true defaultOptions]] := by
  unfold preStatus storageCalls handleSearchRequest
  rw [h]
  exact ⟨rfl, rfl⟩

/-- When `start` is absent the whole pagination block is skipped. -/
theorem resolvePagination_start_none (p : Params) (h : get p "start" = none) :
    resolvePagination p = PaginationResult.resolved 10 0 := by
  unfold resolvePagination
  rw [h]

/-! ## The claims -/

/-- C1: for every parameter set, the data-mode and count-mode statements share
the same join fragments and WHERE clause — the tail `joinsWhereClause p` is
byte-for-byte identical — and the same filter bindings in the same order; they
differ only in the SELECT projection and in the ORDER BY/LIMIT/OFFSET suffix of
the data statement with its two trailing limit/offset bindings. -/
theorem data_count_statements_agree :
    ∀ (p : Params) (opts opts2 : QueryOptions),
      (buildSearchQuery p false opts).sql
        = "SELECT DISTINCT D.* FROM Decks AS D" ++ joinsWhereClause p
          ++ orderByClause p opts.reverse ++ " LIMIT ? OFFSET ?"
      ∧ (buildSearchQuery p true opts2).sql
        = "SELECT COUNT(DISTINCT D.deck_id) FROM Decks AS D" ++ joinsWhereClause p
      ∧ (buildSearchQuery p false opts).params
        = (buildSearchQuery p true opts2).params
          ++ [BindVal.int opts.limit, BindVal.int opts.offset] := by
  intro p opts opts2
  exact ⟨rfl, rfl, rfl⟩

/-- C2 counterexample: with `card=foo&lang=xx`, the `lang` allow-list filters to
zero languages and the compiled statement contains no condition at all — in
particular not the description-only (`card_text_desc`) LIKE condition the claim
asserts: the count statement is the bare base select with zero bindings. -/
theorem card_lang_counterexample :
    getAll [("card", "foo"), ("lang", "xx")] "card" = ["foo"]
    ∧ resolveLangs [("card", "foo"), ("lang", "xx")] = []
    ∧ (buildSearchQuery [("card", "foo"), ("lang", "xx")] true defaultOptions).sql
        = "SELECT COUNT(DISTINCT D.deck_id) FROM Decks AS D"
    ∧ (buildSearchQuery [("card", "foo"), ("lang", "xx")] true defaultOptions).params = []
    ∧ (buildSearchQuery [("card", "foo"), ("lang", "xx")] false defaultOptions).sql
        = "SELECT DISTINCT D.* FROM Decks AS D ORDER BY D.deck_like DESC, D.update_date DESC LIMIT ? OFFSET ?" := by
  refine ⟨rfl, by decide, ?_, ?_, ?_⟩ <;> decide

/-- C2 amended: when `lang` filters down to zero allow-listed codes, the compiler
does not error, but the `card` filter contributes nothing at all — no joins, no
conditions (not even the description-only one) and no bindings: the card block
leaves the accumulator untouched. -/
theorem card_filter_skipped_when_no_langs :
    ∀ (p : Params) (st : CompState), resolveLangs p = [] →
      cardStep p st = st ∧ cardContrib p = [] := by
  intro p st h
  constructor
  · unfold cardStep
    by_cases h1 : (getAll p "card").length > 0
    · simp [h1, h]
    · simp [h1]
  · unfold cardContrib
    by_cases h1 : (getAll p "card").length > 0
    · simp [h1, h]
    · simp [h1]

theorem card_filter_skipped_when_no_langs_witness :
    cardStep [("card", "foo"), ("lang", "xx")] ⟨[], [], []⟩ = ⟨[], [], []⟩
    ∧ cardContrib [("card", "foo"), ("lang", "xx")] = [] :=
  card_filter_skipped_when_no_langs [("card", "foo"), ("lang", "xx")] ⟨[], [], []⟩ (by decide)

/-- C3 counterexample: a malformed range parameter (`likes_ge=abc`) is **not**
detected before storage: `parseInt` yields `NaN`, the compiler binds it, no 400
is produced, and the handler proceeds to the storage batch. -/
theorem range_validation_counterexample :
    parseIntJS "abc" = none
    ∧ preStatus [("likes_ge", "abc")] ≠ some 400
    ∧ storageCalls [("likes_ge", "abc")] ≠ []
    ∧ (buildSearchQuery [("likes_ge", "abc")] true defaultOptions).params = [BindVal.nan] := by
  refine ⟨rfl, ?_, ?_, ?_⟩ <;> decide

/-- C3 amended: only pagination is validated before the storage call — a
pagination failure yields a 400 with an empty storage trace, but whenever
pagination resolves the handler submits the batch even if range parameters
(`likes_ge`, `likes_le`, `after_date`, `before_date`) are malformed; their
failed parses travel to storage as `NaN` bindings. -/
theorem only_pagination_validated_before_storage :
    ∀ (p : Params),
      (∀ msg, resolvePagination p = PaginationResult.invalid msg →
        preStatus p = some 400 ∧ storageCalls p = [])
      ∧ (∀ l o, resolvePagination p = PaginationResult.resolved l o →
        preStatus p = none ∧ storageCalls p ≠ []) := by
  intro p
  constructor
  · intro msg h
    exact handle_invalid_rejects p msg h
  · intro l o h
    obtain ⟨h1, h2⟩ := handle_resolved_executes p l o h
    rw [h2]
    exact ⟨h1, by simp⟩

theorem only_pagination_validated_before_storage_witness :
    (preStatus [("start", "-1")] = some 400 ∧ storageCalls [("start", "-1")] = [])
    ∧ (preStatus [("likes_ge", "abc")] = none ∧ storageCalls [("likes_ge", "abc")] ≠ []) :=
  ⟨(only_pagination_validated_before_storage [("start", "-1")]).1 startErrMsg (by decide),
   (only_pagination_validated_before_storage [("likes_ge", "abc")]).2 10 0 (by decide)⟩

/-- C5: pagination resolution — `start=10&end=30` resolves to limit 20, offset
10; `start=0&size=20` to limit 20, offset 0; and with no `start` parameter the
defaults limit 10, offset 0 apply. -/
theorem pagination_resolution_cases :
    resolvePagination [("start", "10"), ("end", "30")] = PaginationResult.resolved 20 10
    ∧ resolvePagination [("start", "0"), ("size", "20")] = PaginationResult.resolved 20 0
    ∧ ∀ (p : Params), get p "start" = none →
        resolvePagination p = PaginationResult.resolved 10 0 := by
  refine ⟨by decide, by decide, ?_⟩
  intro p h
  exact resolvePagination_start_none p h

theorem pagination_resolution_cases_witness :
    resolvePagination [] = PaginationResult.resolved 10 0 :=
  pagination_resolution_cases.2.2 [] rfl

/-- C6 counterexample: a request with a non-numeric `size` but no `start`
parameter is **not** rejected: the handler resolves the defaults and calls the
storage engine, contradicting the claim that every request carrying an invalid
pagination parameter gets a 400 with zero storage calls. -/
theorem invalid_size_without_start_counterexample :
    parseIntJS "xyz" = none
    ∧ resolvePagination [("size", "xyz")] = PaginationResult.resolved 10 0
    ∧ preStatus [("size", "xyz")] = none
    ∧ storageCalls [("size", "xyz")] ≠ [] := by
  refine ⟨rfl, ?_, ?_, ?_⟩ <;> decide

/-- C6 amended: the invalid-pagination checks apply only when `start` is
present (with `end` taking precedence over `size`): then a negative `start`, an
`end` no greater than `start`, or a non-numeric `size` (with `end` absent) each
yield a 400 response and zero storage calls. With `start` absent, `end` and
`size` are never validated. -/
theorem pagination_validation_rejects :
    ∀ (p : Params) (s : String) (n : Int),
      get p "start" = some s → parseIntJS s = some n →
      ((n < 0 → rejectedBeforeStorage p)
       ∧ (∀ es e, 0 ≤ n → get p "end" = some es → parseIntJS es = some e → e ≤ n →
            rejectedBeforeStorage p)
       ∧ (∀ ss, 0 ≤ n → get p "end" = none → get p "size" = some ss →
            parseIntJS ss = none → rejectedBeforeStorage p)) := by
  intro p s n hs hn
  refine ⟨?_, ?_, ?_⟩
  · intro hneg
    apply handle_invalid_rejects p startErrMsg
    unfold resolvePagination
    simp only [hs, hn]
    rw [if_pos hneg]
  · intro es e hge hes he hle
    apply handle_invalid_rejects p endErrMsg
    unfold resolvePagination
    simp only [hs, hn, hes, he]
    rw [if_neg (by omega : ¬n < 0), if_pos hle]
  · intro ss hge hend hss hparse
    apply handle_invalid_rejects p sizeErrMsg
    unfold resolvePagination
    simp only [hs, hn, hend, hss, hparse]
    rw [if_neg (by omega : ¬n < 0)]

theorem pagination_validation_rejects_witness :
    rejectedBeforeStorage [("start", "-3")]
    ∧ rejectedBeforeStorage [("start", "5"), ("end", "5")]
    ∧ rejectedBeforeStorage [("start", "0"), ("size", "xy")] :=
  ⟨(pagination_validation_rejects [("start", "-3")] "-3" (-3) rfl (by decide)).1 (by decide),
   (pagination_validation_rejects [("start", "5"), ("end", "5")] "5" 5 rfl
       (by decide)).2.1 "5" 5 (by decide) rfl (by decide) (by decide),
   (pagination_validation_rejects [("start", "0"), ("size", "xy")] "0" 0 rfl
       (by decide)).2.2 "xy" (by decide) rfl rfl (by decide)⟩

/-- C7: sorting — with `order=date` and reverse on, the data statement orders
ascending by update-time with popularity as ascending tie-break; with the `rate`
default and no reverse, descending by popularity with update-time descending;
and the reverse flag always flips both sort keys' directions together (the two
keys are fixed and both carry the same direction string). -/
theorem sort_order_directions :
    ∀ (p : Params) (opts : QueryOptions),
      ((buildSearchQuery p false opts).sql
        = "SELECT DISTINCT D.* FROM Decks AS D" ++ joinsWhereClause p
          ++ orderByClause p opts.reverse ++ " LIMIT ? OFFSET ?")
      ∧ (jsOr (get p "order") "rate" = "date" →
          orderByClause p true = " ORDER BY D.update_date ASC, D.deck_like ASC")
      ∧ (jsOr (get p "order") "rate" ≠ "date" →
          orderByClause p false = " ORDER BY D.deck_like DESC, D.update_date DESC")
      ∧ ∃ key1 key2 : String, ∀ r : Bool,
          orderByClause p r
            = " ORDER BY " ++ key1 ++ " " ++ (if r then "ASC" else "DESC")
              ++ ", " ++ key2 ++ " " ++ (if r then "ASC" else "DESC") := by
  intro p opts
  refine ⟨rfl, ?_, ?_, ?_⟩
  · intro h
    unfold orderByClause
    simp only [h]
    rfl
  · intro h
    unfold orderByClause
    rw [if_neg h]
    rfl
  · by_cases hd : jsOr (get p "order") "rate" = "date"
    · refine ⟨"D.update_date", "D.deck_like", fun r => ?_⟩
      unfold orderByClause
      simp only [hd]
      cases r <;> rfl
    · refine ⟨"D.deck_like", "D.update_date", fun r => ?_⟩
      unfold orderByClause
      rw [if_neg hd]
      cases r <;> rfl

theorem sort_order_directions_witness :
    orderByClause [("order", "date")] true = " ORDER BY D.update_date ASC, D.deck_like ASC"
    ∧ orderByClause [] false = " ORDER BY D.deck_like DESC, D.update_date DESC" :=
  ⟨(sort_order_directions [("order", "date")] defaultOptions).2.1 (by decide),
   (sort_order_directions [] defaultOptions).2.2.1 (by decide)⟩

/-- C8: in the success envelope, `size` always equals the length of the returned
`list` (the actual row count, which for `some rows` is `rows.length` however it
compares to the requested limit), and `start` equals the resolved offset. -/
theorem response_size_is_row_count :
    ∀ (α : Type) (offset total : Int) (dataResults : Option (List α)) (rows : List α),
      (shapeResponse offset total dataResults).size
        = (shapeResponse offset total dataResults).list.length
      ∧ (shapeResponse offset total dataResults).start = offset
      ∧ (shapeResponse offset total (some rows)).size = rows.length := by
  intro α offset total d rows
  refine ⟨?_, rfl, rfl⟩
  rcases d <;> rfl

/-- C9: on every request that passes pagination validation, the handler's
storage trace is exactly one atomic batch carrying the data statement and the
count statement together — never two independent calls. -/
theorem single_atomic_batch :
    ∀ (p : Params) (l o : Int),
      resolvePagination p = PaginationResult.resolved l o →
      storageCalls p
        = [[buildSearchQuery p false ⟨l, o, get p "reverse" == some "true"⟩,
            buildSearchQuery p true defaultOptions]]
      ∧ (storageCalls p).length = 1 := by
  intro p l o h
  obtain ⟨_, h2⟩ := handle_resolved_executes p l o h
  exact ⟨h2, by rw [h2]; rfl⟩

theorem single_atomic_batch_witness :
    storageCalls []
      = [[buildSearchQuery [] false ⟨10, 0, get [] "reverse" == some "true"⟩,
          buildSearchQuery [] true defaultOptions]]
    ∧ (storageCalls []).length = 1 :=
  single_atomic_batch [] 10 0 rfl

/-- C10: when `start` is absent, `end` and `size` are ignored entirely —
pagination resolves to limit 10, offset 0, no validation error is raised (no
400), and the handler proceeds to the storage batch — even if `end` or `size`
carry invalid values. -/
theorem start_absent_ignores_end_size :
    ∀ (p : Params), get p "start" = none →
      resolvePagination p = PaginationResult.resolved 10 0
      ∧ preStatus p = none
      ∧ storageCalls p ≠ [] := by
  intro p h
  have h1 := resolvePagination_start_none p h
  obtain ⟨h2, h3⟩ := handle_resolved_executes p 10 0 h1
  rw [h3]
  exact ⟨h1, h2, by simp⟩

theorem start_absent_ignores_end_size_witness :
    resolvePagination [("size", "0"), ("end", "zz")] = PaginationResult.resolved 10 0
    ∧ preStatus [("size", "0"), ("end", "zz")] = none
    ∧ storageCalls [("size", "0"), ("end", "zz")] ≠ [] :=
  start_absent_ignores_end_size [("size", "0"), ("end", "zz")] rfl

theorem catFilterOk_of (p : Params) (key : String)
    (logic : String → String → List String × String × BindVal) (condOf : Nat → String)
    (heq : (fun (i : Nat) (v : String) => (logic v (sanitizeAlias key ++ Nat.repr i)).2.1)
           = (fun i _ => condOf i))
    (hinj : Function.Injective condOf)
    (pre post : List String)
    (hdecomp : (filterState p).conditions = pre ++ catContrib p key logic ++ post)
    (hjoin : ∀ j v, (j, v) ∈ idxMap (fun a b => (a, b)) 0 (getAll p key) →
      ∀ x ∈ (logic v (sanitizeAlias key ++ Nat.repr j)).1, x ∈ (filterState p).joins) :
    CatFilterOk p key logic condOf := by
  refine ⟨?_, ?_, ?_, ⟨pre, post, hdecomp⟩, hjoin⟩
  · unfold catContrib
    rw [heq, idxMap_const_eq_range_map]
    simp
  · unfold catContrib
    exact idxMap_length _ _ 0
  · unfold catContrib
    rw [heq]
    exact idxMap_nodup condOf hinj _ 0

/-- C4: for every request and each categorical key (`race`, `attribute`,
`type`, `setcode`), the N occurrences of the key contribute exactly N separate
LIKE conditions — one per occurrence, under the alias `key + index`, placed as
N distinct elements of the top-level condition list, which the compiler combines
exclusively with AND (`" AND ".join`); the N aliases are pairwise distinct and
every occurrence's join fragments are present in the statement. -/
theorem categorical_repeats_conjunctive :
    ∀ (p : Params),
      CatFilterOk p "race" raceLogic
        (fun i => "R_" ++ ("race" ++ Nat.repr i) ++ ".race_name LIKE ?")
      ∧ CatFilterOk p "attribute" attributeLogic
        (fun i => "A_" ++ ("attribute" ++ Nat.repr i) ++ ".attribute_name LIKE ?")
      ∧ CatFilterOk p "type" typeLogic
        (fun i => "CT_" ++ ("type" ++ Nat.repr i) ++ ".type_name LIKE ?")
      ∧ CatFilterOk p "setcode" setcodeLogic
        (fun i => "S_" ++ ("setcode" ++ Nat.repr i) ++ ".set_name_cn LIKE ?")
      ∧ ((filterState p).conditions ≠ [] →
          ∃ joinsPart, joinsWhereClause p
            = joinsPart ++ " WHERE "
              ++ String.intercalate " AND " (filterState p).conditions) := by
  intro p
  have hfc := filterState_conditions p
  refine ⟨?_, ?_, ?_, ?_, ?_⟩
  · exact catFilterOk_of p "race" raceLogic _ (by funext i v; rfl)
      (repr_wrap_injective "R_" "race" ".race_name LIKE ?")
      (deckNameConds p ++ cardContrib p)
      (catContrib p "attribute" attributeLogic ++ catContrib p "type" typeLogic
        ++ catContrib p "setcode" setcodeLogic ++ rangeConds p)
      (by rw [hfc]; try simp [List.append_assoc])
      (fun j v hm x hx => raceJoin_mem_filterState p j v x hm hx)
  · exact catFilterOk_of p "attribute" attributeLogic _ (by funext i v; rfl)
      (repr_wrap_injective "A_" "attribute" ".attribute_name LIKE ?")
      (deckNameConds p ++ cardContrib p ++ catContrib p "race" raceLogic)
      (catContrib p "type" typeLogic ++ catContrib p "setcode" setcodeLogic ++ rangeConds p)
      (by rw [hfc]; try simp [List.append_assoc])
      (fun j v hm x hx => attributeJoin_mem_filterState p j v x hm hx)
  · exact catFilterOk_of p "type" typeLogic _ (by funext i v; rfl)
      (repr_wrap_injective "CT_" "type" ".type_name LIKE ?")
      (deckNameConds p ++ cardContrib p ++ catContrib p "race" raceLogic
        ++ catContrib p "attribute" attributeLogic)
      (catContrib p "setcode" setcodeLogic ++ rangeConds p)
      (by rw [hfc]; try simp [List.append_assoc])
      (fun j v hm x hx => typeJoin_mem_filterState p j v x hm hx)
  · exact catFilterOk_of p "setcode" setcodeLogic _ (by funext i v; rfl)
      (repr_wrap_injective "S_" "setcode" ".set_name_cn LIKE ?")
      (deckNameConds p ++ cardContrib p ++ catContrib p "race" raceLogic
        ++ catContrib p "attribute" attributeLogic ++ catContrib p "type" typeLogic)
      (rangeConds p)
      (by rw [hfc]; try simp [List.append_assoc])
      (fun j v hm x hx => setcodeJoin_mem_filterState p j v x hm hx)
  · intro hne
    refine ⟨if (filterState p).joins.length > 0
            then " " ++ String.intercalate " " (filterState p).joins else "", ?_⟩
    simp only [joinsWhereClause]
    rw [if_pos (List.length_pos.mpr hne)]
    exact (strAppend_assoc _ _ _).symm

theorem categorical_repeats_conjunctive_witness :
    ("JOIN Races AS R_race1 ON CTR_race1.race_code = R_race1.race_code"
      ∈ (filterState [("race", "a"), ("race", "b")]).joins)
    ∧ (∃ joinsPart, joinsWhereClause [("race", "a"), ("race", "b")]
        = joinsPart ++ " WHERE "
          ++ String.intercalate " AND " (filterState [("race", "a"), ("race", "b")]).conditions) := by
  have h := categorical_repeats_conjunctive [("race", "a"), ("race", "b")]
  refine ⟨?_, h.2.2.2.2 (by decide)⟩
  have hj := h.1.2.2.2.2 1 "b" (by decide)
  exact hj _ (by decide)

end MDDecks
